import Mathlib

/-!
Verification of the PulsarTrack auction-synchronization subsystem.

The definitions below are a shallow embedding of the TypeScript sources:
the local bid validation of the bid form (frontend BidForm together with
the AuctionList status gate), the read-only contract gateway call
(backend soroban-client), the cross-contract serving validation of the
orchestrator, and the WebSocket event-stream client (PulsarWebSocket).
Monetary amounts and timestamps are modelled as exact rationals.
-/

deriving instance DecidableEq for Except

namespace PulsarTrack

/-- Auction lifecycle status, as in the frontend Auction type:
Open, Settled or Cancelled. -/
inductive AuctionStatus where
  | Open
  | Settled
  | Cancelled
deriving DecidableEq, Repr

/-- Rejection reasons produced by the local bid validation path.
notOpen models the AuctionList gate that renders no bid button for a
non-Open auction; the remaining three are the error branches of
BidForm.handleSubmit, in source order. -/
inductive LocalReject where
  | notOpen
  | invalidAmount
  | belowMinimum
  | noCampaign
deriving DecidableEq, Repr

/-- Minimum acceptable bid, from BidForm:
minBid = currentBidXlm ? currentBidXlm * 1.05 : floorXlm.
The inner conditional mirrors JS truthiness: a current bid of 0 is
falsy and falls back to the floor price. -/
def minBid (floorXlm : ℚ) (currentBidXlm : Option ℚ) : ℚ :=
  match currentBidXlm with
  | some c => if c = 0 then floorXlm else c * (21 / 20)
  | none => floorXlm

/-- Validation performed by BidForm.handleSubmit before placeBid is
called: a non-positive amount is rejected, then any amount below
minBid, then a missing campaign id; otherwise the bid is submitted. -/
def handleSubmitValidate (floorXlm : ℚ) (currentBidXlm : Option ℚ)
    (campaign : String) (amount : ℚ) : Except LocalReject Unit :=
  if amount ≤ 0 then .error .invalidAmount
  else if amount < minBid floorXlm currentBidXlm then .error .belowMinimum
  else if campaign = "" then .error .noCampaign
  else .ok ()

/-- The full local bid-validation path: AuctionList passes an onBid
callback only when auction.status is Open, so for any other status the
bid form is unreachable and the bid is refused regardless of amount;
for an Open auction the handleSubmit checks run. -/
def localBidValidation (status : AuctionStatus) (floorXlm : ℚ)
    (currentBidXlm : Option ℚ) (campaign : String) (amount : ℚ) :
    Except LocalReject Unit :=
  if status = .Open then handleSubmitValidate floorXlm currentBidXlm campaign amount
  else .error .notOpen

/-- Rejection reasons named by the specification for validateBid. -/
inductive BidReason where
  | AuctionNotOpen
  | BelowFloor
  | BelowMinIncrement
deriving DecidableEq, Repr

/-- Spec-side validateBid, written from the specification words for the
refinement comparison: fail AuctionNotOpen unless the auction is Open,
then BelowFloor for any amount strictly below the floor price, then
BelowMinIncrement when a current winning bid exists and the amount is
strictly below currentWinningBid times 1.05, otherwise Ok. -/
def specValidateBid (status : AuctionStatus) (floorPrice : ℚ)
    (currentWinningBid : Option ℚ) (amount : ℚ) : Except BidReason Unit :=
  if status ≠ .Open then .error .AuctionNotOpen
  else if amount < floorPrice then .error .BelowFloor
  else
    match currentWinningBid with
    | some w => if amount < w * (21 / 20) then .error .BelowMinIncrement else .ok ()
    | none => .ok ()

/-- Simulation outcome observed by callReadOnly: the ledger rejected
the simulated call, the simulation succeeded with an optional return
value, or the response is neither an error nor a success. -/
inductive SimResponse where
  | simError (msg : String)
  | simSuccess (retval : Option ℤ)
  | simOther
deriving DecidableEq, Repr

/-- Shallow embedding of callReadOnly in soroban-client.ts: throw on a
simulation error, throw when the response is not a success, otherwise
return the decoded return value or null when it is absent. -/
def callReadOnly (sim : SimResponse) : Except String (Option ℤ) :=
  match sim with
  | .simError e => .error ("Simulation error: " ++ e)
  | .simOther => .error "Simulation returned no result"
  | .simSuccess r => .ok r

/-- Modelled from the spec: campaign lifecycle snapshot fetched from the
lifecycle contract (the orchestrator contract source
contracts/campaign-orchestrator/src/lib.rs is not in the tree). -/
structure LifecycleRecord where
  isActive : Bool
  endLedger : ℕ
deriving DecidableEq, Repr

/-- Modelled from the spec: escrow snapshot fetched from the escrow
contract, carrying the locked balance and the disputed/locked flag that
blocks release. -/
structure EscrowRecord where
  lockedAmount : ℕ
  disputed : Bool
deriving DecidableEq, Repr

/-- Modelled from the spec: targeting configuration attached to a
campaign, with a minimum reputation and explicitly excluded segments. -/
structure TargetingRecord where
  minReputation : ℕ
  excludedSegments : List ℕ
deriving DecidableEq, Repr

/-- Modelled from the spec: read-only ledger state consulted by a single
serving validation, fetched per call and never cached. -/
structure LedgerView where
  currentLedger : ℕ
  lifecycle : ℕ → Option LifecycleRecord
  escrow : ℕ → Option EscrowRecord
  targeting : ℕ → Option TargetingRecord
  publisherReputation : String → ℕ
  publisherSegments : String → List ℕ

/-- Modelled from the spec: the three independently configured contract
addresses of the orchestrator, each optional. -/
structure OrchestratorConfig where
  lifecycleContract : Option String
  escrowContract : Option String
  targetingContract : Option String
deriving DecidableEq, Repr

/-- Fatal reasons a serving validation can fail with. -/
inductive ServingError where
  | CampaignNotFound
  | CampaignNotActive
  | CampaignExpired
  | EscrowNotFound
  | InsufficientEscrow
deriving DecidableEq, Repr

/-- Non-fatal warning signals emitted by the targeting check. -/
inductive ServingWarning where
  | BelowMinReputation
  | ExcludedSegment
deriving DecidableEq, Repr

/-- Modelled from the spec: lifecycle check of validateServing; skipped
when no lifecycle contract address is configured, otherwise failing when
the campaign is absent, not active, or past its end marker. -/
def checkLifecycle (cfg : OrchestratorConfig) (ledger : LedgerView)
    (campaignId : ℕ) : Except ServingError Unit :=
  match cfg.lifecycleContract with
  | none => .ok ()
  | some _ =>
    match ledger.lifecycle campaignId with
    | none => .error .CampaignNotFound
    | some r =>
      if r.isActive = false then .error .CampaignNotActive
      else if r.endLedger < ledger.currentLedger then .error .CampaignExpired
      else .ok ()

/-- Modelled from the spec: escrow check of validateServing; skipped when
no escrow contract address is configured, otherwise failing when the
escrow record is absent, its locked balance is zero, or it is disputed. -/
def checkEscrow (cfg : OrchestratorConfig) (ledger : LedgerView)
    (campaignId : ℕ) : Except ServingError Unit :=
  match cfg.escrowContract with
  | none => .ok ()
  | some _ =>
    match ledger.escrow campaignId with
    | none => .error .EscrowNotFound
    | some e =>
      if e.lockedAmount = 0 ∨ e.disputed = true then .error .InsufficientEscrow
      else .ok ()

/-- Modelled from the spec: targeting check of validateServing; skipped
when no targeting contract address is configured or no targeting
configuration exists for the campaign, otherwise emitting non-fatal
warnings for a reputation below the configured minimum and for a
publisher in an explicitly excluded segment. -/
def checkTargeting (cfg : OrchestratorConfig) (ledger : LedgerView)
    (campaignId : ℕ) (publisher : String) : List ServingWarning :=
  match cfg.targetingContract with
  | none => []
  | some _ =>
    match ledger.targeting campaignId with
    | none => []
    | some t =>
      (if ledger.publisherReputation publisher < t.minReputation
        then [.BelowMinReputation] else []) ++
      (if (ledger.publisherSegments publisher).any
          (fun s => t.excludedSegments.contains s)
        then [.ExcludedSegment] else [])

/-- Modelled from the spec: validateServing of the Cross-Contract
Validation Orchestrator, whose implementation
(campaign-orchestrator _validate_campaign_cross_contract) is not in the
tree. It runs the lifecycle, escrow and targeting checks in that fixed
order; the first fatal failure short-circuits the rest, and a successful
call returns the (possibly empty) list of targeting warnings. -/
def validateServing (cfg : OrchestratorConfig) (ledger : LedgerView)
    (campaignId : ℕ) (publisher : String) :
    Except ServingError (List ServingWarning) :=
  match checkLifecycle cfg ledger campaignId with
  | .error e => .error e
  | .ok _ =>
    match checkEscrow cfg ledger campaignId with
    | .error e => .error e
    | .ok _ => .ok (checkTargeting cfg ledger campaignId publisher)

/-- Event type enumeration of the fixed PulsarEvent schema, eleven
values including the two synthetic types connected and error. -/
inductive EventType where
  | bid_placed
  | auction_created
  | auction_settled
  | campaign_created
  | view_recorded
  | payment_processed
  | consent_updated
  | subscription_created
  | reputation_updated
  | connected
  | error
deriving DecidableEq, Repr, Fintype

/-- JSON values, the result of JSON.parse on an inbound text frame. -/
inductive Json where
  | jnull
  | jbool (b : Bool)
  | jnum (q : ℚ)
  | jstr (s : String)
  | jarr (items : List Json)
  | jobj (fields : List (String × Json))

/-- A validated event as delivered to subscriber handlers. -/
structure PulsarEvent where
  type : EventType
  data : List (String × Json)
  timestamp : ℚ
  txHash : Option String

/-- Decoding of the type field against the fixed eleven-value zod
enum. -/
def typeOfString (s : String) : Option EventType :=
  if s = "bid_placed" then some .bid_placed
  else if s = "auction_created" then some .auction_created
  else if s = "auction_settled" then some .auction_settled
  else if s = "campaign_created" then some .campaign_created
  else if s = "view_recorded" then some .view_recorded
  else if s = "payment_processed" then some .payment_processed
  else if s = "consent_updated" then some .consent_updated
  else if s = "subscription_created" then some .subscription_created
  else if s = "reputation_updated" then some .reputation_updated
  else if s = "connected" then some .connected
  else if s = "error" then some .error
  else none

/-- First binding of a key in a parsed JSON object. -/
def lookupField : List (String × Json) → String → Option Json
  | [], _ => none
  | (k, v) :: rest, key => if k = key then some v else lookupField rest key

/-- PulsarEventSchema.safeParse: the frame must be an object whose type
field is one of the eleven enumerated strings, whose data field is an
object, whose timestamp field is a number, and whose txHash field, when
present, is a string; extra fields are ignored. -/
def parseEvent (j : Json) : Option PulsarEvent :=
  match j with
  | .jobj fields =>
    match lookupField fields "type", lookupField fields "data",
        lookupField fields "timestamp", lookupField fields "txHash" with
    | some (.jstr ts), some (.jobj d), some (.jnum q), th =>
      match typeOfString ts with
      | some ty =>
        match th with
        | none => some ⟨ty, d, q, none⟩
        | some (.jstr hx) => some ⟨ty, d, q, some hx⟩
        | some _ => none
      | none => none
    | _, _, _, _ => none
  | _ => none

/-- Handler registry key: a specific event type, or none for the
wildcard key written as the string all in the source. -/
abbrev HKey := Option EventType

/-- Handler registry as in PulsarWebSocket.handlers, a map from key to
the list of subscribed handler identities. -/
abbrev Handlers := List (HKey × List ℕ)

/-- Map read with the empty list as default, as in
this.handlers.get(k) || []. -/
def hget (m : Handlers) (k : HKey) : List ℕ :=
  match m with
  | [] => []
  | (k2, v) :: rest => if k2 = k then v else hget rest k

/-- Map write, as in this.handlers.set(k, v): replaces the binding when
the key is present, otherwise appends it. -/
def hset (m : Handlers) (k : HKey) (v : List ℕ) : Handlers :=
  match m with
  | [] => [(k, v)]
  | (k2, w) :: rest =>
    if k2 = k then (k2, v) :: rest else (k2, w) :: hset rest k v

/-- PulsarWebSocket.on: appends the handler to the list registered
under the key. -/
def subscribeHandler (m : Handlers) (k : HKey) (h : ℕ) : Handlers :=
  hset m k (hget m k ++ [h])

/-- The unsubscribe closure returned by on: filters the handler out of
the list registered under the key it was registered with. -/
def unsubscribeHandler (m : Handlers) (k : HKey) (h : ℕ) : Handlers :=
  hset m k ((hget m k).filter (fun x => x ≠ h))

/-- PulsarWebSocket.emit: the handler invocations performed for one
event, the handlers of the specific type first, then the wildcard
handlers. -/
def emitCalls (m : Handlers) (e : PulsarEvent) : List (ℕ × PulsarEvent) :=
  (hget m (some e.type) ++ hget m none).map (fun h => (h, e))

/-- Connection and backoff state of PulsarWebSocket. liveSocks counts
WebSocket objects that were created and have not yet fired their close
callback; their callbacks stay attached to this client even after
disconnect() sets this.ws to null. timers lists the ids of pending
reconnect timeouts; lastHandle is the handle stored in
this.reconnectTimer, which is never cleared when a timeout fires. -/
structure WsClient where
  liveSocks : ℕ
  timers : List ℕ
  nextTimer : ℕ
  lastHandle : Option ℕ
  reconnectAttempts : ℕ
  handlers : Handlers
deriving DecidableEq, Repr

/-- Fixed reconnect delay in milliseconds, from the source. -/
def reconnectDelay : ℕ := 3000

/-- Fixed maximum number of automatic reconnect attempts, from the
source. -/
def maxReconnectAttempts : ℕ := 5

/-- Initial client state, as built by new PulsarWebSocket(url). -/
def initClient : WsClient := ⟨0, [], 0, none, 0, []⟩

/-- PulsarWebSocket.scheduleReconnect: a no-op once the attempt cap is
reached, otherwise stores a fresh pending timeout in
this.reconnectTimer. -/
def scheduleReconnect (s : WsClient) : WsClient :=
  if maxReconnectAttempts ≤ s.reconnectAttempts then s
  else { s with timers := s.timers ++ [s.nextTimer],
                lastHandle := some s.nextTimer,
                nextTimer := s.nextTimer + 1 }

/-- PulsarWebSocket.connect: creates a new WebSocket whose callbacks
target this client; when the constructor throws, schedules a reconnect
instead. -/
def connectCall (throws : Bool) (s : WsClient) : WsClient :=
  if throws then scheduleReconnect s
  else { s with liveSocks := s.liveSocks + 1 }

/-- External stimuli of the client: the public connect and disconnect
calls, a pending reconnect timeout firing (its callback increments the
attempt counter and calls connect, whose constructor may throw), the
callbacks of a live socket, and the subscribe/unsubscribe actions. A
message frame is none when the text is not valid JSON. -/
inductive WsEvent where
  | connectReq (throws : Bool)
  | disconnectReq
  | timerFire (id : ℕ) (throws : Bool)
  | sockOpen (now : ℚ)
  | sockError (now : ℚ)
  | sockClose
  | sockMsg (frame : Option Json)
  | handlerOn (k : HKey) (h : ℕ)
  | handlerOff (k : HKey) (h : ℕ)

/-- The synthetic event emitted by the onopen callback. -/
def connectedEvent (now : ℚ) : PulsarEvent := ⟨.connected, [], now, none⟩

/-- The synthetic event emitted by the onerror callback. -/
def errorEvent (now : ℚ) : PulsarEvent :=
  ⟨.error, [("msg", .jstr "WebSocket error")], now, none⟩

/-- One step of the client: the state update and the handler
invocations it performs, from the source callbacks. disconnect() runs
clearTimeout on the stored handle before closing the transport; the
close callback of the socket still fires later as a sockClose event.
An invalid inbound message is dropped with no deliveries and no state
change. -/
def step (s : WsClient) (ev : WsEvent) : WsClient × List (ℕ × PulsarEvent) :=
  match ev with
  | .connectReq th => (connectCall th s, [])
  | .disconnectReq =>
    (match s.lastHandle with
     | some h => { s with timers := s.timers.erase h }
     | none => s, [])
  | .timerFire i th =>
    if i ∈ s.timers then
      (connectCall th { s with timers := s.timers.erase i,
                               reconnectAttempts := s.reconnectAttempts + 1 }, [])
    else (s, [])
  | .sockOpen now =>
    if s.liveSocks = 0 then (s, [])
    else ({ s with reconnectAttempts := 0 },
          emitCalls s.handlers (connectedEvent now))
  | .sockError now =>
    if s.liveSocks = 0 then (s, [])
    else (s, emitCalls s.handlers (errorEvent now))
  | .sockClose =>
    if s.liveSocks = 0 then (s, [])
    else (scheduleReconnect { s with liveSocks := s.liveSocks - 1 }, [])
  | .sockMsg f =>
    if s.liveSocks = 0 then (s, [])
    else
      match f with
      | none => (s, [])
      | some j =>
        match parseEvent j with
        | none => (s, [])
        | some e => (s, emitCalls s.handlers e)
  | .handlerOn k h => ({ s with handlers := subscribeHandler s.handlers k h }, [])
  | .handlerOff k h => ({ s with handlers := unsubscribeHandler s.handlers k h }, [])

/-- Run a list of events, keeping the final state. -/
def run (s : WsClient) : List WsEvent → WsClient
  | [] => s
  | ev :: rest => run (step s ev).1 rest

/-- Cumulative delivery log of a run: every handler invocation in
order. -/
def runLog (s : WsClient) : List WsEvent → List (ℕ × PulsarEvent)
  | [] => []
  | ev :: rest => (step s ev).2 ++ runLog (step s ev).1 rest

/-- Number of automatic, timer-driven connect() invocations during a
run. -/
def autoAttempts (s : WsClient) : List WsEvent → ℕ
  | [] => 0
  | ev :: rest =>
    (match ev with
     | .timerFire i _ => if i ∈ s.timers then 1 else 0
     | _ => 0) + autoAttempts (step s ev).1 rest

/-- True when the event list contains no explicit connect() call. -/
def noConnectReq : List WsEvent → Bool
  | [] => true
  | ev :: rest =>
    (match ev with | .connectReq _ => false | _ => true) && noConnectReq rest

/-- True when the event list contains no successful open callback. -/
def noOpen : List WsEvent → Bool
  | [] => true
  | ev :: rest =>
    (match ev with | .sockOpen _ => false | _ => true) && noOpen rest

/-- Single-connection discipline of the intended
create-connect-subscribe-disconnect lifecycle: at most one socket or
pending timeout exists at a time, and any pending timeout was scheduled
below the attempt cap. -/
def SingleConn (s : WsClient) : Prop :=
  s.liveSocks + s.timers.length ≤ 1 ∧
  (s.timers ≠ [] → s.reconnectAttempts < maxReconnectAttempts)

/-- The configuration reached when the attempt cap is exhausted: the
counter is at the cap, no timeout is pending and no socket is live. -/
def GaveUp (s : WsClient) : Prop :=
  maxReconnectAttempts ≤ s.reconnectAttempts ∧ s.timers = [] ∧ s.liveSocks = 0

end PulsarTrack



namespace PulsarTrack

/-- C1: for every auction and proposed bid amount, the local bid
validation follows the spec rule order: a non-Open auction is refused
regardless of the amount; for an Open auction (positive floor, campaign
selected, any existing winning bid at least the floor) the submission
succeeds exactly when spec validateBid succeeds, and the single
minimum-bid rejection of the form corresponds exactly to the spec
BelowFloor / BelowMinIncrement rejections. -/
theorem localBidValidation_follows_spec_rule_order
    (status : AuctionStatus) (floorXlm : ℚ) (cb : Option ℚ)
    (camp : String) (amount : ℚ)
    (hf : 0 < floorXlm) (hcamp : camp ≠ "")
    (hcb : ∀ c, cb = some c → floorXlm ≤ c) :
    (status ≠ .Open →
      localBidValidation status floorXlm cb camp amount = .error .notOpen) ∧
    ((localBidValidation status floorXlm cb camp amount).isOk = true ↔
      (specValidateBid status floorXlm cb amount).isOk = true) ∧
    (status = .Open → 0 < amount →
      (localBidValidation status floorXlm cb camp amount = .error .belowMinimum ↔
        (specValidateBid status floorXlm cb amount = .error .BelowFloor ∨
         specValidateBid status floorXlm cb amount = .error .BelowMinIncrement))) := by
  refine ⟨?_, ?_, ?_⟩
  · intro hs
    simp [localBidValidation, hs]
  · by_cases hs : status = AuctionStatus.Open
    · subst hs
      cases cb with
      | none =>
        simp only [localBidValidation, handleSubmitValidate, minBid, specValidateBid,
          if_pos rfl]
        by_cases h0 : amount ≤ 0
        · have hlt : amount < floorXlm := lt_of_le_of_lt h0 hf
          simp [h0, hlt, Except.isOk, Except.toBool]
        · by_cases hlt : amount < floorXlm
          · simp [h0, hlt, Except.isOk, Except.toBool]
          · simp [h0, hlt, hcamp, Except.isOk, Except.toBool]
      | some c =>
        have hfc : floorXlm ≤ c := hcb c rfl
        have hc0 : c ≠ 0 := by
          intro h
          rw [h] at hfc
          exact absurd hf (not_lt.mpr hfc)
        have hcpos : 0 < c := lt_of_lt_of_le hf hfc
        have hfm : floorXlm ≤ c * (21 / 20) := by linarith
        simp only [localBidValidation, handleSubmitValidate, minBid, specValidateBid,
          if_pos rfl, if_neg hc0]
        by_cases h0 : amount ≤ 0
        · have hlt : amount < floorXlm := lt_of_le_of_lt h0 hf
          have hlt2 : amount < c * (21 / 20) := lt_of_lt_of_le hlt hfm
          simp [h0, hlt, hlt2, Except.isOk, Except.toBool]
        · by_cases hlt : amount < c * (21 / 20)
          · by_cases hltf : amount < floorXlm
            · simp [h0, hlt, hltf, Except.isOk, Except.toBool]
            · simp [h0, hlt, hltf, Except.isOk, Except.toBool]
          · have hltf : ¬ amount < floorXlm := by
              intro h
              exact hlt (lt_of_lt_of_le h hfm)
            simp [h0, hlt, hltf, hcamp, Except.isOk, Except.toBool]
    · have h1 : localBidValidation status floorXlm cb camp amount = .error .notOpen := by
        simp [localBidValidation, hs]
      have h2 : specValidateBid status floorXlm cb amount = .error .AuctionNotOpen := by
        simp [specValidateBid, hs]
      rw [h1, h2]
      simp [Except.isOk, Except.toBool]
  · intro hs hpos
    subst hs
    have h0 : ¬ amount ≤ 0 := not_le.mpr hpos
    cases cb with
    | none =>
      simp only [localBidValidation, handleSubmitValidate, minBid, specValidateBid,
        if_pos rfl]
      by_cases hlt : amount < floorXlm
      · simp [h0, hlt]
      · simp [h0, hlt, hcamp]
    | some c =>
      have hfc : floorXlm ≤ c := hcb c rfl
      have hc0 : c ≠ 0 := by
        intro h
        rw [h] at hfc
        exact absurd hf (not_lt.mpr hfc)
      have hfm : floorXlm ≤ c * (21 / 20) := by
        have hcpos : 0 < c := lt_of_lt_of_le hf hfc
        linarith
      simp only [localBidValidation, handleSubmitValidate, minBid, specValidateBid,
        if_pos rfl, if_neg hc0]
      by_cases hlt : amount < c * (21 / 20)
      · by_cases hltf : amount < floorXlm
        · simp [h0, hlt, hltf]
        · simp [h0, hlt, hltf]
      · have hltf : ¬ amount < floorXlm := by
          intro h
          exact hlt (lt_of_lt_of_le h hfm)
        simp [h0, hlt, hltf, hcamp]

/-- Witness for C1 at a concrete input: floor 100, winning bid 1000,
status Open, amount 99; the hypotheses hold and the theorem applies. -/
theorem localBidValidation_follows_spec_rule_order_witness :
    (localBidValidation .Open 100 (some 1000) "7" 99 = .error .belowMinimum ↔
      (specValidateBid .Open 100 (some 1000) 99 = .error .BelowFloor ∨
       specValidateBid .Open 100 (some 1000) 99 = .error .BelowMinIncrement)) :=
  (localBidValidation_follows_spec_rule_order .Open 100 (some 1000) "7" 99
    (by norm_num) (by decide)
    (by intro c hc; cases hc; norm_num)).2.2 rfl (by norm_num)

/-- C2: with a current winning bid of 1000, a proposed amount of 1049
is rejected as below the minimum increment while 1050 is accepted; and
in general, when a nonzero current winning bid exists, a positive
amount is rejected for increment reasons exactly when it is strictly
below the current winning bid times 1.05. -/
theorem minIncrement_boundary :
    localBidValidation .Open 100 (some 1000) "1" 1049 = .error .belowMinimum ∧
    localBidValidation .Open 100 (some 1000) "1" 1050 = .ok () ∧
    (∀ (floorXlm amount c : ℚ), 0 < amount → c ≠ 0 →
      (handleSubmitValidate floorXlm (some c) "1" amount = .error .belowMinimum ↔
        amount < c * (21 / 20))) := by
  refine ⟨?_, ?_, ?_⟩
  · have h0 : ¬ ((1049 : ℚ) ≤ 0) := by norm_num
    have h1 : ¬ ((1000 : ℚ) = 0) := by norm_num
    have h2 : (1049 : ℚ) < 1000 * (21 / 20) := by norm_num
    simp [localBidValidation, handleSubmitValidate, minBid, h0, h1, h2]
  · have h0 : ¬ ((1050 : ℚ) ≤ 0) := by norm_num
    have h1 : ¬ ((1000 : ℚ) = 0) := by norm_num
    have h2 : ¬ ((1050 : ℚ) < 1000 * (21 / 20)) := by norm_num
    have h3 : ¬ (("1" : String) = "") := by decide
    simp [localBidValidation, handleSubmitValidate, minBid, h0, h1, h2, h3]
  intro floorXlm amount c hpos hc0
  have h0 : ¬ amount ≤ 0 := not_le.mpr hpos
  simp only [handleSubmitValidate, minBid, if_neg hc0]
  by_cases hlt : amount < c * (21 / 20)
  · simp [h0, hlt]
  · simp [h0, hlt]

/-- Witness for C2 at a concrete input: winning bid 1000, amount 1049,
floor 100; the general conjunct applies with its hypotheses
discharged. -/
theorem minIncrement_boundary_witness :
    handleSubmitValidate 100 (some 1000) "1" 1049 = .error .belowMinimum ↔
      (1049 : ℚ) < 1000 * (21 / 20) :=
  minIncrement_boundary.2.2 100 1049 1000 (by norm_num) (by norm_num)

/-- C5 counterexample: when the simulation succeeds but carries no
return value, callReadOnly returns null, a non-error result, instead of
failing with the empty-result error. -/
theorem callReadOnly_empty_success_returns_null :
    callReadOnly (.simSuccess none) = .ok none ∧
    (callReadOnly (.simSuccess none)).isOk = true := by
  exact ⟨rfl, rfl⟩

/-- C5 amended: callReadOnly fails with a simulation error when the
ledger rejects the simulated call, fails with the empty-result error
when the response is neither an error nor a success, and otherwise
returns the decoded value, returning null when the successful
simulation carries no return value. -/
theorem callReadOnly_error_taxonomy :
    (∀ e, callReadOnly (.simError e) = .error ("Simulation error: " ++ e)) ∧
    callReadOnly .simOther = .error "Simulation returned no result" ∧
    (∀ r, callReadOnly (.simSuccess r) = .ok r) :=
  ⟨fun _ => rfl, rfl, fun _ => rfl⟩
/-- C3: validateServing runs the lifecycle, escrow and targeting checks
in that fixed order, treating an unconfigured contract address as a
silent pass; the first fatal failure decides the whole call; and with
all three contract addresses unconfigured it returns Ok with no
warnings for every ledger state, campaign and publisher. -/
theorem validateServing_skip_chain
    : (∀ (ledger : LedgerView) (cid : ℕ) (pub : String),
        validateServing ⟨none, none, none⟩ ledger cid pub = .ok []) ∧
      (∀ (cfg : OrchestratorConfig) (ledger : LedgerView) (cid : ℕ),
        cfg.lifecycleContract = none → checkLifecycle cfg ledger cid = .ok ()) ∧
      (∀ (cfg : OrchestratorConfig) (ledger : LedgerView) (cid : ℕ),
        cfg.escrowContract = none → checkEscrow cfg ledger cid = .ok ()) ∧
      (∀ (cfg : OrchestratorConfig) (ledger : LedgerView) (cid : ℕ) (pub : String),
        cfg.targetingContract = none → checkTargeting cfg ledger cid pub = []) ∧
      (∀ (cfg : OrchestratorConfig) (ledger : LedgerView) (cid : ℕ) (pub : String)
        (e : ServingError), checkLifecycle cfg ledger cid = .error e →
        validateServing cfg ledger cid pub = .error e) ∧
      (∀ (cfg : OrchestratorConfig) (ledger : LedgerView) (cid : ℕ) (pub : String)
        (e : ServingError), checkLifecycle cfg ledger cid = .ok () →
        checkEscrow cfg ledger cid = .error e →
        validateServing cfg ledger cid pub = .error e) := by
  refine ⟨?_, ?_, ?_, ?_, ?_, ?_⟩
  · intro ledger cid pub
    simp [validateServing, checkLifecycle, checkEscrow, checkTargeting]
  · intro cfg ledger cid h
    simp [checkLifecycle, h]
  · intro cfg ledger cid h
    simp [checkEscrow, h]
  · intro cfg ledger cid pub h
    simp [checkTargeting, h]
  · intro cfg ledger cid pub e h
    simp [validateServing, h]
  · intro cfg ledger cid pub e h1 h2
    simp [validateServing, h1, h2]

/-- Witness for C3 at a concrete input: with lifecycle and escrow
configured but the campaign absent from the lifecycle contract, the
whole call fails with CampaignNotFound before the escrow check runs. -/
theorem validateServing_skip_chain_witness :
    validateServing ⟨some "L", some "E", none⟩
      ⟨0, fun _ => none, fun _ => none, fun _ => none, fun _ => 0, fun _ => []⟩
      1 "pub" = .error .CampaignNotFound :=
  validateServing_skip_chain.2.2.2.2.1
    ⟨some "L", some "E", none⟩
    ⟨0, fun _ => none, fun _ => none, fun _ => none, fun _ => 0, fun _ => []⟩
    1 "pub" .CampaignNotFound rfl

/-- C4: a targeting-check finding (reputation below the campaign
minimum or membership in an excluded segment) only produces non-fatal
warnings: when the lifecycle and escrow checks pass, validateServing
still returns Ok with a nonempty warning list, and in general the
success of validateServing never depends on the targeting check. -/
theorem targeting_findings_only_warn
    : (∀ (cfg : OrchestratorConfig) (ledger : LedgerView) (cid : ℕ) (pub : String)
        (t : TargetingRecord),
        cfg.targetingContract.isSome = true →
        ledger.targeting cid = some t →
        (ledger.publisherReputation pub < t.minReputation ∨
          (ledger.publisherSegments pub).any
            (fun s => t.excludedSegments.contains s) = true) →
        checkLifecycle cfg ledger cid = .ok () →
        checkEscrow cfg ledger cid = .ok () →
        ∃ ws, validateServing cfg ledger cid pub = .ok ws ∧ ws ≠ []) ∧
      (∀ (cfg : OrchestratorConfig) (ledger : LedgerView) (cid : ℕ) (pub : String),
        (validateServing cfg ledger cid pub).isOk =
          ((checkLifecycle cfg ledger cid).isOk && (checkEscrow cfg ledger cid).isOk)) := by
  constructor
  · intro cfg ledger cid pub t hsome ht hfind h1 h2
    refine ⟨checkTargeting cfg ledger cid pub, ?_, ?_⟩
    · simp [validateServing, h1, h2]
    · obtain ⟨a, ha⟩ := Option.isSome_iff_exists.mp hsome
      rcases hfind with hrep | hseg
      · simp [checkTargeting, ha, ht, hrep]
      · simp [checkTargeting, ha, ht]
        intro _
        simpa using hseg
  · intro cfg ledger cid pub
    rcases h1 : checkLifecycle cfg ledger cid with e | u
    · simp [validateServing, h1, Except.isOk, Except.toBool]
    · rcases h2 : checkEscrow cfg ledger cid with e | u
      · simp [validateServing, h1, h2, Except.isOk, Except.toBool]
      · simp [validateServing, h1, h2, Except.isOk, Except.toBool]

/-- Witness for C4 at a concrete input: targeting configured, the
publisher reputation 10 is below the campaign minimum 50, lifecycle and
escrow unconfigured, so serving proceeds with a nonempty warning
list. -/
theorem targeting_findings_only_warn_witness :
    ∃ ws, validateServing ⟨none, none, some "T"⟩
      ⟨0, fun _ => none, fun _ => none, fun _ => some ⟨50, []⟩, fun _ => 10, fun _ => []⟩
      1 "pub" = .ok ws ∧ ws ≠ [] :=
  targeting_findings_only_warn.1
    ⟨none, none, some "T"⟩
    ⟨0, fun _ => none, fun _ => none, fun _ => some ⟨50, []⟩, fun _ => 10, fun _ => []⟩
    1 "pub" ⟨50, []⟩ rfl rfl (Or.inl (by norm_num)) rfl rfl


/-- Reading a key just written returns the written value. -/
theorem hget_hset_self (m : Handlers) (k : HKey) (v : List ℕ) :
    hget (hset m k v) k = v := by
  induction m with
  | nil => simp [hget, hset]
  | cons p rest ih =>
    obtain ⟨k2, w⟩ := p
    by_cases hk : k2 = k
    · simp [hget, hset, hk]
    · simp [hget, hset, hk, ih]

/-- Writing one key leaves every other key unchanged. -/
theorem hget_hset_ne (m : Handlers) (k kq : HKey) (v : List ℕ)
    (h : kq ≠ k) : hget (hset m k v) kq = hget m kq := by
  have hk2 : k ≠ kq := Ne.symm h
  induction m with
  | nil => simp [hget, hset, hk2]
  | cons p rest ih =>
    obtain ⟨k2, w⟩ := p
    by_cases hkk : k2 = k
    · subst hkk
      simp [hget, hset, hk2]
    · by_cases hq : k2 = kq
      · subst hq
        simp [hget, hset, hkk]
      · simp [hget, hset, hkk, hq, ih]

/-- Writing the same key twice keeps only the second write. -/
theorem hset_hset_self (m : Handlers) (k : HKey) (v w : List ℕ) :
    hset (hset m k v) k w = hset m k w := by
  induction m with
  | nil => simp [hset]
  | cons p rest ih =>
    obtain ⟨k2, u⟩ := p
    by_cases hk : k2 = k
    · simp [hset, hk]
    · simp [hset, hk, ih]

/-- C6: an inbound frame that is not valid JSON, or whose parsed value
fails the PulsarEvent schema, produces zero handler invocations, raises
nothing, and leaves the whole client state unchanged. -/
theorem invalid_message_no_callbacks
    : (∀ s : WsClient, step s (.sockMsg none) = (s, [])) ∧
      (∀ (s : WsClient) (j : Json), parseEvent j = none →
        step s (.sockMsg (some j)) = (s, [])) := by
  constructor
  · intro s
    by_cases h : s.liveSocks = 0 <;> simp [step, h]
  · intro s j hp
    by_cases h : s.liveSocks = 0 <;> simp [step, h, hp]

/-- Witness for C6 at a concrete input: the frame null parses as JSON
but fails the schema, and a client with a live socket and a wildcard
subscriber drops it with no state change and no deliveries. -/
theorem invalid_message_no_callbacks_witness :
    step ⟨1, [], 0, none, 0, [(none, [5])]⟩ (.sockMsg (some .jnull)) =
      (⟨1, [], 0, none, 0, [(none, [5])]⟩, []) :=
  invalid_message_no_callbacks.2 ⟨1, [], 0, none, 0, [(none, [5])]⟩ .jnull rfl

/-- C9: a handler registered only under a specific event type is
invoked only for events of that type; a wildcard handler is invoked for
every emitted event; the unsubscribe action is idempotent; and
unsubscribing one handler changes neither the registrations nor the
deliveries of any other handler. -/
theorem subscription_contract
    : (∀ (m : Handlers) (t : EventType) (h : ℕ) (e : PulsarEvent),
        (∀ k, h ∈ hget m k → k = some t) →
        (h, e) ∈ emitCalls m e → e.type = t) ∧
      (∀ (m : Handlers) (h : ℕ) (e : PulsarEvent),
        h ∈ hget m none → (h, e) ∈ emitCalls m e) ∧
      (∀ (m : Handlers) (k : HKey) (h : ℕ),
        unsubscribeHandler (unsubscribeHandler m k h) k h =
          unsubscribeHandler m k h) ∧
      (∀ (m : Handlers) (k kq : HKey) (h hq : ℕ), hq ≠ h →
        (hq ∈ hget (unsubscribeHandler m k h) kq ↔ hq ∈ hget m kq)) ∧
      (∀ (m : Handlers) (k : HKey) (h hq : ℕ) (e : PulsarEvent), hq ≠ h →
        ((hq, e) ∈ emitCalls (unsubscribeHandler m k h) e ↔
          (hq, e) ∈ emitCalls m e)) := by
  have hne : ∀ (m : Handlers) (k kq : HKey) (h hq : ℕ), hq ≠ h →
      (hq ∈ hget (unsubscribeHandler m k h) kq ↔ hq ∈ hget m kq) := by
    intro m k kq h hq hqh
    by_cases hk : kq = k
    · subst hk
      rw [unsubscribeHandler, hget_hset_self]
      simp [List.mem_filter, hqh]
    · rw [unsubscribeHandler, hget_hset_ne _ _ _ _ hk]
  refine ⟨?_, ?_, ?_, hne, ?_⟩
  · intro m t h e hreg hmem
    obtain ⟨x, hx, hxe⟩ := List.mem_map.mp hmem
    have hx1 : x = h := congrArg Prod.fst hxe
    rw [hx1] at hx
    rcases List.mem_append.mp hx with hl | hr
    · have h2 := hreg (some e.type) hl
      exact Option.some.inj h2
    · exact absurd (hreg none hr) (by simp)
  · intro m h e hm
    exact List.mem_map.mpr ⟨h, List.mem_append.mpr (Or.inr hm), rfl⟩
  · intro m k h
    rw [unsubscribeHandler, unsubscribeHandler, hget_hset_self, hset_hset_self]
    congr 1
    rw [List.filter_filter]
    simp
  · intro m k h hq e hqh
    constructor
    · intro hmem
      obtain ⟨x, hx, hxe⟩ := List.mem_map.mp hmem
      have hx1 : x = hq := congrArg Prod.fst hxe
      rw [hx1] at hx
      refine List.mem_map.mpr ⟨hq, ?_, rfl⟩
      rcases List.mem_append.mp hx with hl | hr
      · exact List.mem_append.mpr (Or.inl ((hne m k (some e.type) h hq hqh).mp hl))
      · exact List.mem_append.mpr (Or.inr ((hne m k none h hq hqh).mp hr))
    · intro hmem
      obtain ⟨x, hx, hxe⟩ := List.mem_map.mp hmem
      have hx1 : x = hq := congrArg Prod.fst hxe
      rw [hx1] at hx
      refine List.mem_map.mpr ⟨hq, ?_, rfl⟩
      rcases List.mem_append.mp hx with hl | hr
      · exact List.mem_append.mpr (Or.inl ((hne m k (some e.type) h hq hqh).mpr hl))
      · exact List.mem_append.mpr (Or.inr ((hne m k none h hq hqh).mpr hr))

/-- Witness for C9 at concrete inputs: a handler registered only under
bid_placed is invoked for a bid_placed event only, and unsubscribing
handler 1 from the wildcard key leaves handler 2 subscribed. -/
theorem subscription_contract_witness :
    (⟨.bid_placed, [], 0, none⟩ : PulsarEvent).type = .bid_placed ∧
    (2 ∈ hget (unsubscribeHandler [(none, [1, 2])] none 1) none ↔
      2 ∈ hget [(none, [1, 2])] none) :=
  ⟨subscription_contract.1 [(some .bid_placed, [1])] .bid_placed 1
      ⟨.bid_placed, [], 0, none⟩ (by decide)
      (List.mem_map.mpr ⟨1, by simp [hget], rfl⟩),
    subscription_contract.2.2.2.1 [(none, [1, 2])] none none 1 2 (by decide)⟩


/-- scheduleReconnect never changes the attempt counter. -/
theorem scheduleReconnect_attempts (s : WsClient) :
    (scheduleReconnect s).reconnectAttempts = s.reconnectAttempts := by
  unfold scheduleReconnect
  split <;> rfl

/-- connect() never changes the attempt counter. -/
theorem connectCall_attempts (th : Bool) (s : WsClient) :
    (connectCall th s).reconnectAttempts = s.reconnectAttempts := by
  unfold connectCall
  split
  · exact scheduleReconnect_attempts s
  · rfl

/-- scheduleReconnect preserves the single-connection discipline from
an idle state. -/
theorem singleConn_schedule (s : WsClient) (hl : s.liveSocks = 0)
    (ht : s.timers = []) : SingleConn (scheduleReconnect s) := by
  unfold scheduleReconnect
  by_cases hm : maxReconnectAttempts ≤ s.reconnectAttempts
  · rw [if_pos hm]
    exact ⟨by simp [hl, ht], by simp [ht]⟩
  · rw [if_neg hm]
    refine ⟨by simp [hl, ht], fun _ => ?_⟩
    exact Nat.lt_of_not_le hm

/-- Every stimulus other than an explicit connect() preserves the
single-connection discipline. -/
theorem singleConn_step (s : WsClient) (ev : WsEvent)
    (h : SingleConn s) (hc : ∀ th, ev ≠ .connectReq th) :
    SingleConn (step s ev).1 := by
  obtain ⟨h1, h2⟩ := h
  cases ev with
  | connectReq th => exact absurd rfl (hc th)
  | disconnectReq =>
    cases hl : s.lastHandle with
    | none =>
      simp only [step, hl]
      exact ⟨h1, h2⟩
    | some hd =>
      simp only [step, hl]
      refine ⟨?_, ?_⟩
      · have hsub := (List.erase_sublist hd s.timers).length_le
        simp only []
        omega
      · intro hne2
        apply h2
        intro heq
        apply hne2
        rw [heq]
        simp
  | timerFire i th =>
    by_cases hi : i ∈ s.timers
    · have hlt : s.reconnectAttempts < maxReconnectAttempts :=
        h2 (List.ne_nil_of_mem hi)
      have hp : 0 < s.timers.length := List.length_pos.mpr (List.ne_nil_of_mem hi)
      have hls : s.liveSocks = 0 := by omega
      have herase : s.timers.erase i = [] := by
        apply List.length_eq_zero.mp
        rw [List.length_erase_of_mem hi]
        omega
      simp only [step, if_pos hi]
      cases th with
      | false =>
        refine ⟨?_, ?_⟩
        · simp only [connectCall, if_neg (by simp : ¬ (false = true))]
          simp [herase, hls]
        · simp only [connectCall, if_neg (by simp : ¬ (false = true))]
          simp [herase]
      | true => exact singleConn_schedule _ (by simp [hls]) (by simp [herase])
    · have hst : (step s (.timerFire i th)).1 = s := by simp [step, hi]
      rw [hst]
      exact ⟨h1, h2⟩
  | sockOpen now =>
    by_cases h0 : s.liveSocks = 0
    · simp only [step, if_pos h0]
      exact ⟨h1, h2⟩
    · simp only [step, if_neg h0]
      refine ⟨by simpa using h1, fun _ => ?_⟩
      simp [maxReconnectAttempts]
  | sockError now =>
    have hst : (step s (.sockError now)).1 = s := by
      by_cases h0 : s.liveSocks = 0 <;> simp [step, h0]
    rw [hst]
    exact ⟨h1, h2⟩
  | sockClose =>
    by_cases h0 : s.liveSocks = 0
    · simp only [step, if_pos h0]
      exact ⟨h1, h2⟩
    · have hl1 : s.liveSocks = 1 := by omega
      have ht0 : s.timers = [] := by
        apply List.length_eq_zero.mp
        omega
      simp only [step, if_neg h0]
      exact singleConn_schedule _ (by simp [hl1]) (by simp [ht0])
  | sockMsg f =>
    have hst : (step s (.sockMsg f)).1 = s := by
      by_cases h0 : s.liveSocks = 0
      · simp [step, h0]
      · cases f with
        | none => simp [step, h0]
        | some j => cases hp : parseEvent j <;> simp [step, h0, hp]
    rw [hst]
    exact ⟨h1, h2⟩
  | handlerOn k hh => exact ⟨h1, h2⟩
  | handlerOff k hh => exact ⟨h1, h2⟩

/-- Every stimulus other than connect(), a timeout callback and a
successful open leaves the attempt counter unchanged. -/
theorem step_attempts_eq (s : WsClient) (ev : WsEvent)
    (hc : ∀ th, ev ≠ .connectReq th)
    (ho : ∀ q, ev ≠ .sockOpen q)
    (ht : ∀ i th, ev ≠ .timerFire i th) :
    (step s ev).1.reconnectAttempts = s.reconnectAttempts := by
  cases ev with
  | connectReq th => exact absurd rfl (hc th)
  | sockOpen now => exact absurd rfl (ho now)
  | timerFire i th => exact absurd rfl (ht i th)
  | disconnectReq => cases hl : s.lastHandle <;> simp [step, hl]
  | sockError now => by_cases h0 : s.liveSocks = 0 <;> simp [step, h0]
  | sockClose =>
    by_cases h0 : s.liveSocks = 0
    · simp [step, h0]
    · simp [step, h0, scheduleReconnect_attempts]
  | sockMsg f =>
    by_cases h0 : s.liveSocks = 0
    · simp [step, h0]
    · cases f with
      | none => simp [step, h0]
      | some j => cases hp : parseEvent j <;> simp [step, h0, hp]
  | handlerOn k hh => rfl
  | handlerOff k hh => rfl

/-- Under the single-connection discipline, a run with no manual
connect() and no successful open performs at most
maxReconnectAttempts minus the current counter automatic attempts. -/
theorem autoAttempts_bound : ∀ (evs : List WsEvent) (s : WsClient),
    SingleConn s → noConnectReq evs = true → noOpen evs = true →
    autoAttempts s evs ≤ maxReconnectAttempts - s.reconnectAttempts := by
  intro evs
  induction evs with
  | nil =>
    intro s _ _ _
    simp [autoAttempts]
  | cons ev rest ih =>
    intro s hs hc ho
    simp only [noConnectReq, Bool.and_eq_true] at hc
    simp only [noOpen, Bool.and_eq_true] at ho
    obtain ⟨hc1, hc2⟩ := hc
    obtain ⟨ho1, ho2⟩ := ho
    cases ev with
    | connectReq th => exact absurd hc1 (by simp)
    | sockOpen now => exact absurd ho1 (by simp)
    | timerFire i th =>
      by_cases hi : i ∈ s.timers
      · have hlt : s.reconnectAttempts < maxReconnectAttempts :=
          hs.2 (List.ne_nil_of_mem hi)
        have hstep := singleConn_step s (.timerFire i th) hs (by intro th2; simp)
        have hatt : (step s (.timerFire i th)).1.reconnectAttempts =
            s.reconnectAttempts + 1 := by
          simp [step, hi, connectCall_attempts]
        have hx := ih _ hstep hc2 ho2
        rw [hatt] at hx
        simp only [autoAttempts, if_pos hi]
        omega
      · have hst : (step s (.timerFire i th)).1 = s := by simp [step, hi]
        have hx := ih s hs hc2 ho2
        simp only [autoAttempts, if_neg hi]
        rw [hst]
        omega
    | disconnectReq =>
      have hstep := singleConn_step s .disconnectReq hs (by intro th; simp)
      have hatt := step_attempts_eq s .disconnectReq (by intro th; simp)
        (by intro q; simp) (by intro i th; simp)
      have hx := ih _ hstep hc2 ho2
      rw [hatt] at hx
      simpa [autoAttempts] using hx
    | sockError now =>
      have hstep := singleConn_step s (.sockError now) hs (by intro th; simp)
      have hatt := step_attempts_eq s (.sockError now) (by intro th; simp)
        (by intro q; simp) (by intro i th; simp)
      have hx := ih _ hstep hc2 ho2
      rw [hatt] at hx
      simpa [autoAttempts] using hx
    | sockClose =>
      have hstep := singleConn_step s .sockClose hs (by intro th; simp)
      have hatt := step_attempts_eq s .sockClose (by intro th; simp)
        (by intro q; simp) (by intro i th; simp)
      have hx := ih _ hstep hc2 ho2
      rw [hatt] at hx
      simpa [autoAttempts] using hx
    | sockMsg f =>
      have hstep := singleConn_step s (.sockMsg f) hs (by intro th; simp)
      have hatt := step_attempts_eq s (.sockMsg f) (by intro th; simp)
        (by intro q; simp) (by intro i th; simp)
      have hx := ih _ hstep hc2 ho2
      rw [hatt] at hx
      simpa [autoAttempts] using hx
    | handlerOn k hh =>
      have hstep := singleConn_step s (.handlerOn k hh) hs (by intro th; simp)
      have hatt := step_attempts_eq s (.handlerOn k hh) (by intro th; simp)
        (by intro q; simp) (by intro i th; simp)
      have hx := ih _ hstep hc2 ho2
      rw [hatt] at hx
      simpa [autoAttempts] using hx
    | handlerOff k hh =>
      have hstep := singleConn_step s (.handlerOff k hh) hs (by intro th; simp)
      have hatt := step_attempts_eq s (.handlerOff k hh) (by intro th; simp)
        (by intro q; simp) (by intro i th; simp)
      have hx := ih _ hstep hc2 ho2
      rw [hatt] at hx
      simpa [autoAttempts] using hx

/-- Once the client has given up, every stimulus other than an explicit
connect() keeps it in the given-up configuration. -/
theorem gaveUp_preserved (s : WsClient) (ev : WsEvent) (h : GaveUp s)
    (hc : ∀ th, ev ≠ .connectReq th) : GaveUp (step s ev).1 := by
  obtain ⟨h1, h2, h3⟩ := h
  cases ev with
  | connectReq th => exact absurd rfl (hc th)
  | disconnectReq =>
    cases hl : s.lastHandle with
    | none =>
      simp only [step, hl]
      exact ⟨h1, h2, h3⟩
    | some hd =>
      simp only [step, hl]
      exact ⟨h1, by simp [h2], h3⟩
  | timerFire i th =>
    have hi : i ∉ s.timers := by
      rw [h2]
      simp
    simp only [step, if_neg hi]
    exact ⟨h1, h2, h3⟩
  | sockOpen now =>
    simp only [step, if_pos h3]
    exact ⟨h1, h2, h3⟩
  | sockError now =>
    simp only [step, if_pos h3]
    exact ⟨h1, h2, h3⟩
  | sockClose =>
    simp only [step, if_pos h3]
    exact ⟨h1, h2, h3⟩
  | sockMsg f =>
    simp only [step, if_pos h3]
    exact ⟨h1, h2, h3⟩
  | handlerOn k hh => exact ⟨h1, h2, h3⟩
  | handlerOff k hh => exact ⟨h1, h2, h3⟩

/-- From the given-up configuration, no run without an explicit
connect() performs any automatic connection attempt. -/
theorem gaveUp_auto : ∀ (evs : List WsEvent) (s : WsClient), GaveUp s →
    noConnectReq evs = true → autoAttempts s evs = 0 := by
  intro evs
  induction evs with
  | nil =>
    intro s _ _
    rfl
  | cons ev rest ih =>
    intro s hg hc
    simp only [noConnectReq, Bool.and_eq_true] at hc
    obtain ⟨hc1, hc2⟩ := hc
    cases ev with
    | connectReq th => exact absurd hc1 (by simp)
    | timerFire i th =>
      have hi : i ∉ s.timers := by
        rw [hg.2.1]
        simp
      have hx := ih _ (gaveUp_preserved s (.timerFire i th) hg (by intro th2; simp)) hc2
      simp [autoAttempts, hi, hx]
    | disconnectReq =>
      have hx := ih _ (gaveUp_preserved s .disconnectReq hg (by intro th2; simp)) hc2
      simp [autoAttempts, hx]
    | sockOpen now =>
      have hx := ih _ (gaveUp_preserved s (.sockOpen now) hg (by intro th2; simp)) hc2
      simp [autoAttempts, hx]
    | sockError now =>
      have hx := ih _ (gaveUp_preserved s (.sockError now) hg (by intro th2; simp)) hc2
      simp [autoAttempts, hx]
    | sockClose =>
      have hx := ih _ (gaveUp_preserved s .sockClose hg (by intro th2; simp)) hc2
      simp [autoAttempts, hx]
    | sockMsg f =>
      have hx := ih _ (gaveUp_preserved s (.sockMsg f) hg (by intro th2; simp)) hc2
      simp [autoAttempts, hx]
    | handlerOn k hh =>
      have hx := ih _ (gaveUp_preserved s (.handlerOn k hh) hg (by intro th2; simp)) hc2
      simp [autoAttempts, hx]
    | handlerOff k hh =>
      have hx := ih _ (gaveUp_preserved s (.handlerOff k hh) hg (by intro th2; simp)) hc2
      simp [autoAttempts, hx]

/-- C7: the reconnect delay and attempt cap are the fixed constants
3000 ms and 5; under the single-connection discipline a run with no
manual connect() and no successful open performs at most 5 automatic
reconnect attempts; from the given-up configuration no automatic
attempt ever occurs until an explicit connect(); and a successful open
resets the attempt counter to zero. -/
theorem reconnect_attempt_cap
    : maxReconnectAttempts = 5 ∧ reconnectDelay = 3000 ∧
      (∀ (s : WsClient) (evs : List WsEvent), SingleConn s →
        noConnectReq evs = true → noOpen evs = true →
        autoAttempts s evs ≤ maxReconnectAttempts - s.reconnectAttempts) ∧
      (∀ (s : WsClient) (evs : List WsEvent), GaveUp s →
        noConnectReq evs = true → autoAttempts s evs = 0) ∧
      (∀ (s : WsClient) (now : ℚ), s.liveSocks ≠ 0 →
        (step s (.sockOpen now)).1.reconnectAttempts = 0) :=
  ⟨rfl, rfl,
    fun s evs hs hc ho => autoAttempts_bound evs s hs hc ho,
    fun s evs hg hc => gaveUp_auto evs s hg hc,
    fun s now h0 => by simp [step, h0]⟩

/-- Witness for C7 at concrete inputs: a connected client that fails
and retries twice stays within the cap, a given-up client ignores a
stray close and timer, and an open callback resets the counter. -/
theorem reconnect_attempt_cap_witness :
    autoAttempts ⟨1, [], 0, none, 0, []⟩
      [.sockClose, .timerFire 0 false, .sockClose, .timerFire 1 false] ≤
      maxReconnectAttempts - 0 ∧
    autoAttempts ⟨0, [], 9, none, 5, []⟩ [.sockClose, .timerFire 3 false] = 0 ∧
    (step ⟨1, [], 0, none, 0, []⟩ (.sockOpen 0)).1.reconnectAttempts = 0 :=
  ⟨reconnect_attempt_cap.2.2.1 ⟨1, [], 0, none, 0, []⟩
      [.sockClose, .timerFire 0 false, .sockClose, .timerFire 1 false]
      ⟨by decide, by decide⟩ rfl rfl,
    reconnect_attempt_cap.2.2.2.1 ⟨0, [], 9, none, 5, []⟩
      [.sockClose, .timerFire 3 false] ⟨by decide, rfl, rfl⟩ rfl,
    reconnect_attempt_cap.2.2.2.2 ⟨1, [], 0, none, 0, []⟩ 0 (by decide)⟩

/-- C8 (observed divergence): after connect(), disconnect() and the
transport close callback fired by the deliberate shutdown, a reconnect
timeout is pending, and letting it fire performs an automatic connect()
with no manual connect() in between. -/
theorem disconnect_close_schedules_reconnect :
    (run initClient [.connectReq false, .disconnectReq, .sockClose]).timers = [0] ∧
    autoAttempts (run initClient [.connectReq false, .disconnectReq, .sockClose])
      [.timerFire 0 false] = 1 ∧
    (run initClient
      [.connectReq false, .disconnectReq, .sockClose,
        .timerFire 0 false]).liveSocks = 1 := by
  refine ⟨?_, ?_, ?_⟩ <;> decide


/-- Every handler invocation of a single step is a synthetic connected
event, a synthetic error event, or the parse of the inbound frame of
that step. -/
theorem stepLog_origin (s : WsClient) (ev : WsEvent) :
    ∀ p ∈ (step s ev).2,
      (∃ q, p.2 = connectedEvent q) ∨ (∃ q, p.2 = errorEvent q) ∨
      (∃ j, ev = .sockMsg (some j) ∧ parseEvent j = some p.2) := by
  intro p hp
  cases ev with
  | connectReq th => simp [step, connectCall] at hp
  | disconnectReq => cases hl : s.lastHandle <;> simp [step, hl] at hp
  | timerFire i th => by_cases hi : i ∈ s.timers <;> simp [step, hi, connectCall] at hp
  | sockOpen now =>
    by_cases h0 : s.liveSocks = 0
    · simp [step, h0] at hp
    · simp only [step, if_neg h0] at hp
      obtain ⟨x, hx, hxe⟩ := List.mem_map.mp hp
      exact Or.inl ⟨now, (congrArg Prod.snd hxe).symm⟩
  | sockError now =>
    by_cases h0 : s.liveSocks = 0
    · simp [step, h0] at hp
    · simp only [step, if_neg h0] at hp
      obtain ⟨x, hx, hxe⟩ := List.mem_map.mp hp
      exact Or.inr (Or.inl ⟨now, (congrArg Prod.snd hxe).symm⟩)
  | sockClose =>
    by_cases h0 : s.liveSocks = 0 <;> simp [step, h0, scheduleReconnect] at hp
  | sockMsg f =>
    by_cases h0 : s.liveSocks = 0
    · simp [step, h0] at hp
    · cases f with
      | none => simp [step, h0] at hp
      | some j =>
        cases hpar : parseEvent j with
        | none => simp [step, h0, hpar] at hp
        | some e =>
          simp only [step, if_neg h0, hpar] at hp
          obtain ⟨x, hx, hxe⟩ := List.mem_map.mp hp
          refine Or.inr (Or.inr ⟨j, rfl, ?_⟩)
          rw [hpar, (congrArg Prod.snd hxe).symm]
  | handlerOn k hh => simp [step] at hp
  | handlerOff k hh => simp [step] at hp

/-- C10: every event value ever delivered to a subscriber handler is
either the parse of some inbound frame of the run, hence passed the
schema, or one of the two synthetic events of the client; and a frame
that parses is an object whose type field decodes into the eleven-value
enumeration, whose data field is an object, and whose timestamp field
is a number. -/
theorem delivered_events_validated_or_synthetic
    : (∀ (s : WsClient) (evs : List WsEvent) (p : ℕ × PulsarEvent),
        p ∈ runLog s evs →
        (∃ q, p.2 = connectedEvent q) ∨ (∃ q, p.2 = errorEvent q) ∨
        (∃ j, WsEvent.sockMsg (some j) ∈ evs ∧ parseEvent j = some p.2)) ∧
      (∀ (j : Json) (e : PulsarEvent), parseEvent j = some e →
        ∃ fields, j = .jobj fields ∧
          (∃ ts, lookupField fields "type" = some (.jstr ts) ∧
            typeOfString ts = some e.type) ∧
          (∃ d, lookupField fields "data" = some (.jobj d) ∧ e.data = d) ∧
          (∃ q, lookupField fields "timestamp" = some (.jnum q) ∧
            e.timestamp = q)) := by
  constructor
  · intro s evs
    induction evs generalizing s with
    | nil =>
      intro p hp
      simp [runLog] at hp
    | cons ev rest ih =>
      intro p hp
      simp only [runLog] at hp
      rcases List.mem_append.mp hp with h1 | h2
      · rcases stepLog_origin s ev p h1 with hA | hB | ⟨j, hj, hpe⟩
        · exact Or.inl hA
        · exact Or.inr (Or.inl hB)
        · exact Or.inr (Or.inr ⟨j, hj ▸ List.mem_cons_self ev rest, hpe⟩)
      · rcases ih (step s ev).1 p h2 with hA | hB | ⟨j, hj, hpe⟩
        · exact Or.inl hA
        · exact Or.inr (Or.inl hB)
        · exact Or.inr (Or.inr ⟨j, List.mem_cons_of_mem ev hj, hpe⟩)
  · intro j e h
    cases j with
    | jnull => exact Option.noConfusion h
    | jbool b => exact Option.noConfusion h
    | jnum q => exact Option.noConfusion h
    | jstr s => exact Option.noConfusion h
    | jarr items => exact Option.noConfusion h
    | jobj fields =>
      refine ⟨fields, rfl, ?_⟩
      simp only [parseEvent] at h
      split at h
      · split at h
        · split at h
          · obtain rfl := Option.some.inj h
            exact ⟨⟨_, by assumption, by assumption⟩,
              ⟨_, by assumption, rfl⟩, ⟨_, by assumption, rfl⟩⟩
          · obtain rfl := Option.some.inj h
            exact ⟨⟨_, by assumption, by assumption⟩,
              ⟨_, by assumption, rfl⟩, ⟨_, by assumption, rfl⟩⟩
          · exact Option.noConfusion h
        · exact Option.noConfusion h
      · exact Option.noConfusion h


/-- Witness for C10 at a concrete input: a wildcard subscriber receives
the parsed auction_settled event of a schema-valid frame, and the
origin disjunction holds at that delivery with the frame as the
witness; the shape facts hold for the frame itself. -/
theorem delivered_events_validated_or_synthetic_witness :
    ((∃ q, (5, (⟨.auction_settled, [], 3, none⟩ : PulsarEvent)).2 = connectedEvent q) ∨
      (∃ q, (5, (⟨.auction_settled, [], 3, none⟩ : PulsarEvent)).2 = errorEvent q) ∨
      (∃ j, WsEvent.sockMsg (some j) ∈
          [WsEvent.sockMsg (some (Json.jobj [("type", .jstr "auction_settled"),
            ("data", .jobj []), ("timestamp", .jnum 3)]))] ∧
        parseEvent j = some (5, (⟨.auction_settled, [], 3, none⟩ : PulsarEvent)).2)) ∧
    (∃ fields, Json.jobj [("type", Json.jstr "auction_settled"),
        ("data", Json.jobj []), ("timestamp", Json.jnum 3)] = .jobj fields ∧
      (∃ ts, lookupField fields "type" = some (.jstr ts) ∧
        typeOfString ts = some (⟨.auction_settled, [], 3, none⟩ : PulsarEvent).type) ∧
      (∃ d, lookupField fields "data" = some (.jobj d) ∧
        (⟨.auction_settled, [], 3, none⟩ : PulsarEvent).data = d) ∧
      (∃ q, lookupField fields "timestamp" = some (.jnum q) ∧
        (⟨.auction_settled, [], 3, none⟩ : PulsarEvent).timestamp = q)) :=
  ⟨delivered_events_validated_or_synthetic.1
      ⟨1, [], 0, none, 0, [(none, [5])]⟩
      [WsEvent.sockMsg (some (Json.jobj [("type", .jstr "auction_settled"),
        ("data", .jobj []), ("timestamp", .jnum 3)]))]
      (5, ⟨.auction_settled, [], 3, none⟩)
      (show (5, (⟨.auction_settled, [], 3, none⟩ : PulsarEvent)) ∈
          [(5, (⟨.auction_settled, [], 3, none⟩ : PulsarEvent))] from
        List.mem_singleton.mpr rfl),
    delivered_events_validated_or_synthetic.2
      (Json.jobj [("type", .jstr "auction_settled"),
        ("data", .jobj []), ("timestamp", .jnum 3)])
      ⟨.auction_settled, [], 3, none⟩ rfl⟩

end PulsarTrack
